import Mathlib

/-!
Verification development for the `dip_catcher` core of the
nayukata/gravity-investment repository.

Shallow embedding conventions:
* A pandas DataFrame with `date`/`close` columns is a `List Row`, where a
  calendar date is its proleptic-Gregorian ordinal (an integer day number)
  and a close is an exact rational (`ℚ`), idealizing Python floats.
* A pandas NaN entry is `Option.none`; a series that may contain NaN is a
  `List (Option ℚ)`.
* Exceptions are values of an inductive type; a fallible operation returns
  `Except`.
* File-system side effects (mtime bookkeeping, `touch`, CSV round-trips)
  are outside the pure embedding; the cache file's parsed content is passed
  in as an `Option (List Row)` and its mtime as an explicit timestamp.
-/

namespace DipCatcher

/-- One row of a price DataFrame: a (date, close) pair.  The date is a
proleptic-Gregorian ordinal day number (as produced by `datetime.date`),
the close an exact rational standing for the Python float. -/
structure Row where
  date : ℤ
  close : ℚ
deriving DecidableEq

/-- Python exception classes that matter to `CachedSource.fetch`:
the four classes named in its `except` clause, plus `otherError`
standing for every other exception class. -/
inductive PyExc where
  | valueError
  | connectionError
  | osError
  | timeoutError
  | otherError
deriving DecidableEq

/-- Whether `CachedSource.fetch`'s
`except (ValueError, ConnectionError, OSError, TimeoutError)` clause
catches the exception. -/
def caughtByFetch : PyExc → Bool
  | .valueError => true
  | .connectionError => true
  | .osError => true
  | .timeoutError => true
  | .otherError => false

namespace CachedSource

/-- Embedding of `CachedSource._filter`:
`df.loc[(df["date"].dt.date >= start) & (df["date"].dt.date <= end)]`. -/
def filterRange (df : List Row) (start e : ℤ) : List Row :=
  df.filter (fun r => decide (start ≤ r.date) && decide (r.date ≤ e))

/-- Embedding of `drop_duplicates(subset=["date"])` with pandas' default
`keep="first"`: keeps the first row carrying each date, scanning left to right.  `seen`
accumulates the dates already kept. -/
def dropDupAux (seen : List ℤ) : List Row → List Row
  | [] => []
  | r :: rest =>
    if r.date ∈ seen then dropDupAux seen rest
    else r :: dropDupAux (r.date :: seen) rest

/-- Embedding of `drop_duplicates(subset=["date"])` on a whole DataFrame. -/
def dropDupByDate (df : List Row) : List Row :=
  dropDupAux [] df

/-- The `sort_values("date")` key relation. -/
def rowLe (a b : Row) : Prop := a.date ≤ b.date

instance : DecidableRel rowLe := fun a b => Int.decLe a.date b.date

instance : IsTotal Row rowLe := ⟨fun a b => Int.le_total a.date b.date⟩

instance : IsTrans Row rowLe := ⟨fun _ _ _ h h' => Int.le_trans h h'⟩

/-- Embedding of `df.sort_values("date")`: sort ascending by date. -/
def sortByDate (df : List Row) : List Row :=
  List.insertionSort rowLe df

/-- Embedding of `CachedSource._merge(cached, new)`:
if `cached is None`, sort `new` by date; otherwise concatenate cached and
new, drop duplicate dates keeping the first occurrence (which comes from
`cached`, since `cached` precedes `new` in the concatenation), and sort
ascending by date. -/
def merge (cached : Option (List Row)) (new : List Row) : List Row :=
  match cached with
  | none => sortByDate new
  | some c => sortByDate (dropDupByDate (c ++ new))

/-- Embedding of `cached_df["date"].min()` (callers guarantee a non-empty frame;
the `[]` case is unreachable there). -/
def minDate : List Row → ℤ
  | [] => 0
  | r :: rest => rest.foldl (fun m s => min m s.date) r.date

/-- Embedding of `cached_df["date"].max()`. -/
def maxDate : List Row → ℤ
  | [] => 0
  | r :: rest => rest.foldl (fun m s => max m s.date) r.date

/-- Embedding of `CachedSource._next_fetch_start(cached_df, original_start)`. -/
def next_fetch_start (cached_df : List Row) (original_start : ℤ) : ℤ :=
  let cache_start := minDate cached_df
  if original_start < cache_start then original_start
  else
    let next_day := maxDate cached_df + 1
    max next_day original_start

/-- Embedding of `CachedSource._load_cache`: `file` is the parsed content
of the cache CSV when the file exists (`none` when it does not); an
existing but empty frame also yields `None`. -/
def load_cache (file : Option (List Row)) : Option (List Row) :=
  match file with
  | none => none
  | some df => if df.isEmpty then none else some df

/-- Embedding of the `FetchResult` dataclass.  The `last_modified` field
(file mtime) is I/O metadata outside the pure embedding and is omitted. -/
structure FetchResult where
  df : List Row
  is_fallback : Bool
deriving DecidableEq

/-- Embedding of `CachedSource.fetch(code, start, end)`.  The provider
(`self._source.fetch`) is an explicit function of the requested range
whose outcome is a DataFrame or an exception; the cache file content is
`file`.  Raising is modelled by `Except.error`. -/
def fetch (file : Option (List Row))
    (provider : ℤ → ℤ → Except PyExc (List Row))
    (start e : ℤ) : Except PyExc FetchResult :=
  let cached_df := load_cache file
  match cached_df with
  | some cdf =>
    let fetch_start := next_fetch_start cdf start
    if e < fetch_start then
      -- cache is up-to-date: serve it without calling the provider
      .ok ⟨filterRange cdf start e, false⟩
    else
      match provider fetch_start e with
      | .ok new_df =>
        .ok ⟨filterRange (merge (some cdf) new_df) start e, false⟩
      | .error exc =>
        if caughtByFetch exc then .ok ⟨filterRange cdf start e, true⟩
        else .error exc
  | none =>
    match provider start e with
    | .ok new_df => .ok ⟨filterRange (merge none new_df) start e, false⟩
    | .error exc => .error exc

end CachedSource

/-! Scoring engine (`src/dip_catcher/logic.py`). -/

/-- Embedding of `np.clip(x, 0, 100)`. -/
def clip01 (x : ℚ) : ℚ := min (max x 0) 100

/-- Embedding of `IndicatorScores`: the five per-indicator sub-scores. -/
structure IndicatorScores where
  drawdown : ℚ
  rarity : ℚ
  rsi : ℚ
  ma_deviation : ℚ
  bollinger : ℚ
deriving DecidableEq

/-- Embedding of `_score_drawdown` (`_DD_MAX = 0.30`). -/
def score_drawdown (dd : ℚ) : ℚ :=
  let depth := |dd|
  clip01 (depth / (3/10) * 100)

/-- Embedding of `_score_rarity` (`_RARITY_UPPER = 50.0`). -/
def score_rarity (percentile : ℚ) : ℚ :=
  if 50 ≤ percentile then 0
  else clip01 ((50 - percentile) / 50 * 100)

/-- Embedding of `_score_rsi` (`_RSI_UPPER = 70.0`, `_RSI_LOWER = 20.0`). -/
def score_rsi (rsi : ℚ) : ℚ :=
  if 70 ≤ rsi then 0
  else clip01 ((70 - rsi) / (70 - 20) * 100)

/-- Embedding of `_score_ma_deviation` (`_MA_DEV_MAX = 0.10`). -/
def score_ma_deviation (deviation : ℚ) : ℚ :=
  if 0 ≤ deviation then 0
  else
    let depth := |deviation|
    clip01 (depth / (1/10) * 100)

/-- Embedding of `_score_bollinger` (`_BB_UPPER = 1.0`, `_BB_LOWER = -0.5`). -/
def score_bollinger (percent_b : ℚ) : ℚ :=
  if 1 ≤ percent_b then 0
  else clip01 ((1 - percent_b) / (1 - (-(1/2))) * 100)

/-- Embedding of `_total_score` with the `_WEIGHTS` table
`{drawdown: 0.30, rarity: 0.25, rsi: 0.20, ma_deviation: 0.15,
bollinger: 0.10}`.  The run-time check that the weight keys equal the
`IndicatorScores` field names always passes (both sets are the fixed five
names above), so its `ValueError` branch is unreachable and not modelled. -/
def total_score (s : IndicatorScores) : ℚ :=
  clip01 (s.drawdown * (3/10) + s.rarity * (1/4) + s.rsi * (1/5)
    + s.ma_deviation * (3/20) + s.bollinger * (1/10))

/-- Embedding of `_label_from_score`.  The labels are the source's literal
strings; the spec's English names are translations: 強い買い場 = strong buy
zone, 買い場検討 = consider buying, 様子見 = watch, 待機 = wait. -/
def label_from_score (score : ℚ) : String :=
  if 80 ≤ score then "強い買い場"
  else if 60 ≤ score then "買い場検討"
  else if 40 ≤ score then "様子見"
  else "待機"

/-! Indicator library (`src/dip_catcher/logic.py`). -/

/-- Running maximum with accumulator, for `closes.cummax()`. -/
def cummaxAux (m : ℚ) : List ℚ → List ℚ
  | [] => []
  | c :: rest => max m c :: cummaxAux (max m c) rest

/-- Embedding of `closes.cummax()`. -/
def cummax : List ℚ → List ℚ
  | [] => []
  | c :: rest => c :: cummaxAux c rest

/-- Embedding of `calc_drawdown`: `(closes - M) / M.replace(0, nan)` where
`M` is the running maximum; a zero running maximum yields NaN (`none`). -/
def calc_drawdown (closes : List ℚ) : List (Option ℚ) :=
  (closes.zip (cummax closes)).map
    (fun p => if p.2 = 0 then none else some ((p.1 - p.2) / p.2))

/-- Successive differences, for `closes.diff()` (whose leading NaN entry is
dropped here; consumers re-insert the one-position offset explicitly). -/
def diffs : List ℚ → List ℚ
  | [] => []
  | [_] => []
  | a :: b :: rest => (b - a) :: diffs (b :: rest)

/-- Embedding of `calc_daily_returns` = `closes.pct_change().dropna()`:
entry `i ≥ 1` is `(c_i - c_{i-1}) / c_{i-1}`.  A 0/0 entry is IEEE NaN and
is dropped by `dropna`; an x/0 entry with x ≠ 0 is IEEE ±infinity, which
`dropna` keeps — the rational embedding carries the junk value 0 for it
(no claim depends on that value). -/
def calc_daily_returns (closes : List ℚ) : List ℚ :=
  (closes.zip (diffs closes)).filterMap
    (fun p => if p.1 = 0 ∧ p.2 = 0 then none else some (p.2 / p.1))

/-- Embedding of `calc_return_percentile`: the percentage of historical
returns `≤ current_return`; 50.0 on an empty sample. -/
def calc_return_percentile (returns : List ℚ) (current_return : ℚ) : ℚ :=
  if returns.isEmpty then 50
  else (returns.countP (fun v => decide (v ≤ current_return)) : ℚ)
    / returns.length * 100

/-- The trailing window `closes[i+1-period .. i]` of a rolling computation
with `window=period, min_periods=period` (callers only use it when
`i + 1 ≥ period`). -/
def rollingSlice (closes : List ℚ) (period i : ℕ) : List ℚ :=
  (closes.drop (i + 1 - period)).take period

/-- Mean of a full rolling window. -/
def sliceMean (l : List ℚ) (period : ℕ) : ℚ := l.sum / period

/-- Sample variance (pandas' rolling `std` default `ddof=1`) of a full
rolling window.  (`period = 1` would divide by zero — NaN in pandas, junk
0 here — but `AnalysisConfig` bounds keep `period ≥ 5`.) -/
def sliceVar (l : List ℚ) (period : ℕ) : ℚ :=
  (l.map (fun x => (x - sliceMean l period) ^ 2)).sum / ((period : ℚ) - 1)

/-- Embedding of `calc_ma_deviation`: rolling mean with
`min_periods=window`, deviation `(close - MA)/MA`.  A 0/0 point is IEEE
NaN (`none`); an x/0 point with x ≠ 0 is IEEE ±infinity, carried as the
junk rational 0 (no claim depends on that value). -/
def calc_ma_deviation (closes : List ℚ) (window : ℕ) : List (Option ℚ) :=
  (List.range closes.length).map (fun i =>
    if i + 1 < window then none
    else
      let ma := sliceMean (rollingSlice closes window i) window
      let c := closes.getD i 0
      if c = 0 ∧ ma = 0 then none else some ((c - ma) / ma))

/-- The `ewm(alpha, adjust=False).mean()` recursion after its first observed
value: `y_i = (1-α)·y_{i-1} + α·x_i`. -/
def ewmAux (α prev : ℚ) : List ℚ → List ℚ
  | [] => []
  | x :: xs =>
    let y := (1 - α) * prev + α * x
    y :: ewmAux α y xs

/-- Embedding of `ewm(alpha, adjust=False).mean()` over a series whose first value
initializes the recursion (the leading-NaN input position of
`closes.diff()` is handled by the caller's indexing). -/
def ewmNoAdjust (α : ℚ) : List ℚ → List ℚ
  | [] => []
  | x :: xs => x :: ewmAux α x xs

/-- The per-step gains `delta.clip(lower=0)` of `calc_rsi`, positions
1 … n−1 of the original series. -/
def rsiGains (closes : List ℚ) : List ℚ :=
  (diffs closes).map (fun d => max d 0)

/-- The per-step losses `(-delta).clip(lower=0)` of `calc_rsi`. -/
def rsiLosses (closes : List ℚ) : List ℚ :=
  (diffs closes).map (fun d => max (-d) 0)

/-- Wilder-smoothed average gain (`gain.ewm(alpha=1/period,
min_periods=period, adjust=False).mean()`); entry `k` corresponds to
series position `k + 1`. -/
def rsi_avg_gain (closes : List ℚ) (period : ℕ) : List ℚ :=
  ewmNoAdjust (1 / (period : ℚ)) (rsiGains closes)

/-- Wilder-smoothed average loss. -/
def rsi_avg_loss (closes : List ℚ) (period : ℕ) : List ℚ :=
  ewmNoAdjust (1 / (period : ℚ)) (rsiLosses closes)

/-- Embedding of `calc_rsi`.  Position `i` is NaN (`none`) until `period`
observations accumulate (`min_periods=period` on a series whose position
0 is the NaN of `closes.diff()`), i.e. for `i < period`.  Where defined,
`RSI = 100 - 100/(1 + avg_gain/avg_loss)` under IEEE semantics: with
`avg_loss = 0` and `avg_gain > 0` the ratio is +infinity and RSI is
exactly 100; with `avg_loss = avg_gain = 0` the ratio is 0/0 = NaN and
RSI is NaN. -/
def calc_rsi (closes : List ℚ) (period : ℕ) : List (Option ℚ) :=
  (List.range closes.length).map (fun i =>
    if i < period then none
    else
      match (rsi_avg_gain closes period)[i - 1]?, (rsi_avg_loss closes period)[i - 1]? with
      | some g, some l =>
        if l = 0 then (if g = 0 then none else some 100)
        else some (100 - 100 / (1 + g / l))
      | _, _ => none)

/-- Embedding of the `BollingerBands` dataclass: four same-length series
aligned with the input. -/
structure BollingerBands where
  middle : List (Option ℚ)
  upper : List (Option ℚ)
  lower : List (Option ℚ)
  percent_b : List (Option ℚ)

/-- Embedding of `calc_bollinger_bands`.  The floating-point square root
is abstracted as the parameter `sqrtFn` (an exact square root of a
rational is in general irrational; no claim depends on the value it
returns, only on where the series is defined).  `%B` is NaN where the
window is incomplete or the band width is zero
(`band_width.replace(0, nan)`). -/
def calc_bollinger_bands (sqrtFn : ℚ → ℚ) (closes : List ℚ)
    (period : ℕ) (num_std : ℚ) : BollingerBands :=
  let n := closes.length
  let middle := (List.range n).map (fun i =>
    if i + 1 < period then none
    else some (sliceMean (rollingSlice closes period i) period))
  let sd := (List.range n).map (fun i =>
    if i + 1 < period then none
    else some (sqrtFn (sliceVar (rollingSlice closes period i) period)))
  let upper := List.zipWith (fun m s =>
    match m, s with
    | some m, some s => some (m + num_std * s)
    | _, _ => none) middle sd
  let lower := List.zipWith (fun m s =>
    match m, s with
    | some m, some s => some (m - num_std * s)
    | _, _ => none) middle sd
  let percent_b := (List.range n).map (fun i =>
    if i + 1 < period then none
    else
      let m := sliceMean (rollingSlice closes period i) period
      let s := sqrtFn (sliceVar (rollingSlice closes period i) period)
      let up := m + num_std * s
      let lo := m - num_std * s
      let band_width := up - lo
      if band_width = 0 then none
      else some ((closes.getD i 0 - lo) / band_width))
  ⟨middle, upper, lower, percent_b⟩

/-! Drawdown-event detector (`find_drawdown_events`). -/

/-- Embedding of the `DrawdownEvent` dataclass; dates are ordinal day
numbers and `recovery_days` is the calendar-day difference. -/
structure DrawdownEvent where
  peak_date : ℤ
  trough_date : ℤ
  max_drawdown : ℚ
  recovery_date : Option ℤ
  recovery_days : Option ℤ
deriving DecidableEq

/-- The backward peak search
`for j in range(i-1, -1, -1): if close_values[j] == peak_val: ...`:
`peakScan closes pv j` returns the largest index `≤ j` whose close equals
`pv`, or `none`. -/
def peakScan (closes : List ℚ) (pv : ℚ) : ℕ → Option ℕ
  | 0 =>
    match closes[0]? with
    | some c => if c = pv then some 0 else none
    | none => none
  | j + 1 =>
    match closes[j + 1]? with
    | some c => if c = pv then some (j + 1) else peakScan closes pv j
    | none => peakScan closes pv j

/-- The loop state of `find_drawdown_events`. -/
structure ScanState where
  events : List DrawdownEvent
  in_drawdown : Bool
  peak_idx : ℕ
  trough_idx : ℕ
  trough_dd : ℚ
deriving DecidableEq

/-- One iteration of the `for i in range(len(dd_values))` loop of
`find_drawdown_events` at index `i` with drawdown entry `dd_val`; a NaN
drawdown value (`continue`) leaves the state unchanged. -/
def scanStep (dates : List ℤ) (closes : List ℚ) (threshold : ℚ)
    (st : ScanState) (i : ℕ) (dd_val : Option ℚ) : ScanState :=
  match dd_val with
  | some v =>
    if v < threshold then
      if !st.in_drawdown then
        let peak_val := (cummax closes).getD i 0
        let peak_idx :=
          match (if i = 0 then none else peakScan closes peak_val (i - 1)) with
          | some j => j
          | none => i
        { st with
            in_drawdown := true, peak_idx := peak_idx,
            trough_idx := i, trough_dd := v }
      else if v < st.trough_dd then
        { st with trough_idx := i, trough_dd := v }
      else st
    else if st.in_drawdown && decide (0 ≤ v) then
      { st with
          events := st.events ++
            [⟨dates.getD st.peak_idx 0, dates.getD st.trough_idx 0, st.trough_dd,
              some (dates.getD i 0), some (dates.getD i 0 - dates.getD st.trough_idx 0)⟩],
          in_drawdown := false }
    else st
  | none => st

/-- The loop of `find_drawdown_events` run over the drawdown entries at
indices `i, i+1, …` (equivalent to `for i in range(len(dd_values))` with
`dd_val = dd_values[i]`, walking the list instead of indexing). -/
def scanLoop (dates : List ℤ) (closes : List ℚ) (threshold : ℚ) :
    ScanState → ℕ → List (Option ℚ) → ScanState
  | st, _, [] => st
  | st, i, v :: rest =>
    scanLoop dates closes threshold (scanStep dates closes threshold st i v) (i + 1) rest

/-- Embedding of `find_drawdown_events(dates, closes, threshold)` (the
source default threshold is −0.05).  If the loop ends still in-event, the
open event is emitted with both recovery fields null. -/
def find_drawdown_events (dates : List ℤ) (closes : List ℚ)
    (threshold : ℚ) : List DrawdownEvent :=
  let dd := calc_drawdown closes
  let final := scanLoop dates closes threshold ⟨[], false, 0, 0, 0⟩ 0 dd
  if final.in_drawdown then
    final.events ++
      [⟨dates.getD final.peak_idx 0, dates.getD final.trough_idx 0,
        final.trough_dd, none, none⟩]
  else final.events

/-! Top-level analysis (`analyze`). -/

/-- Embedding of `AnalysisConfig` (pydantic bounds are recorded as
hypotheses of the theorems that need them). -/
structure AnalysisConfig where
  period_years : ℕ
  ma_days : ℕ
  rsi_period : ℕ
  bb_period : ℕ
  bb_std : ℚ

/-- Embedding of the `AnalysisResult` dataclass. -/
structure AnalysisResult where
  scores : IndicatorScores
  total_score : ℚ
  label : String
  current_drawdown : ℚ
  current_daily_return : ℚ
  current_rsi : ℚ
  current_ma_deviation : ℚ
  current_bb_percent_b : ℚ
  return_percentile : ℚ
  drawdown_events : List DrawdownEvent

/-- Embedding of `analyze(history, config)`.  `dates`/`closes` are the
(sorted, non-empty, as `PriceHistory` guarantees) columns of the history;
`sqrtFn` abstracts the floating-point square root used inside
`calc_bollinger_bands`.  Each `.iloc[-1]` NaN check becomes a match on the
last `Option` entry, substituting the source's neutral fallbacks
(drawdown 0, MA-deviation 0, RSI 50, %B 0.5, return 0 / percentile 50). -/
def analyze (sqrtFn : ℚ → ℚ) (dates : List ℤ) (closes : List ℚ)
    (config : AnalysisConfig) : AnalysisResult :=
  let dd_series := calc_drawdown closes
  let current_dd := match dd_series.getLast? with
    | some (some v) => v
    | _ => 0
  let daily_ret := calc_daily_returns closes
  let current_ret := match daily_ret.getLast? with
    | some v => v
    | none => 0
  let percentile := if 0 < daily_ret.length
    then calc_return_percentile daily_ret current_ret else 50
  let ma_dev_series := calc_ma_deviation closes config.ma_days
  let current_ma_dev := match ma_dev_series.getLast? with
    | some (some v) => v
    | _ => 0
  let rsi_series := calc_rsi closes config.rsi_period
  let current_rsi := match rsi_series.getLast? with
    | some (some v) => v
    | _ => 50
  let bb := calc_bollinger_bands sqrtFn closes config.bb_period config.bb_std
  let current_bb := match bb.percent_b.getLast? with
    | some (some v) => v
    | _ => 1/2
  let dd_events := find_drawdown_events dates closes (-(1/20))
  let scores : IndicatorScores :=
    ⟨score_drawdown current_dd, score_rarity percentile, score_rsi current_rsi,
      score_ma_deviation current_ma_dev, score_bollinger current_bb⟩
  let total := total_score scores
  ⟨scores, total, label_from_score total, current_dd, current_ret, current_rsi,
    current_ma_dev, current_bb, percentile, dd_events⟩

/-! Japanese market calendar and staleness policy
(`src/dip_catcher/sources/cache.py`). -/

/-- A calendar date as year/month/day, mirroring `datetime.date`
(proleptic Gregorian, year ≥ 1). -/
structure JDate where
  year : ℕ
  month : ℕ
  day : ℕ
deriving DecidableEq

/-- Gregorian leap-year rule. -/
def isLeapYear (y : ℕ) : Bool :=
  (y % 4 == 0 && y % 100 != 0) || y % 400 == 0

/-- Days in a month (`datetime`'s calendar). -/
def daysInMonth (y m : ℕ) : ℕ :=
  if m = 2 then (if isLeapYear y then 29 else 28)
  else if m = 4 ∨ m = 6 ∨ m = 9 ∨ m = 11 then 30
  else 31

/-- Days in the months strictly before month `m` of year `y`. -/
def daysBeforeMonth (y m : ℕ) : ℕ :=
  (List.range m).foldl (fun acc k => if 1 ≤ k then acc + daysInMonth y k else acc) 0

/-- Embedding of `datetime.date.toordinal()`: day 1 is 0001-01-01. -/
def toOrdinal (d : JDate) : ℕ :=
  365 * (d.year - 1) + (d.year - 1) / 4 - (d.year - 1) / 100 + (d.year - 1) / 400
    + daysBeforeMonth d.year d.month + d.day

/-- Embedding of `datetime.date.weekday()`: Monday = 0 … Sunday = 6
(0001-01-01 was a Monday). -/
def weekday (d : JDate) : ℕ :=
  (toOrdinal d + 6) % 7

/-- Embedding of `d - timedelta(days=1)` on year/month/day form. -/
def prevDay (d : JDate) : JDate :=
  if 2 ≤ d.day then ⟨d.year, d.month, d.day - 1⟩
  else if 2 ≤ d.month then ⟨d.year, d.month - 1, daysInMonth d.year (d.month - 1)⟩
  else ⟨d.year - 1, 12, 31⟩

/-- The `_FIXED_HOLIDAYS` set of (month, day) pairs. -/
def fixedHolidays : List (ℕ × ℕ) :=
  [(1, 1), (2, 11), (2, 23), (4, 29), (5, 3), (5, 4), (5, 5),
   (8, 11), (11, 3), (11, 23)]

/-- The happy-Monday and equinox clauses shared by `_is_jp_holiday` and
`_is_jp_holiday_no_substitute` (everything except the substitute rule). -/
def isJpHolidayNoSubstitute (d : JDate) : Bool :=
  if (d.month, d.day) ∈ fixedHolidays then true
  else if weekday d = 0 &&
      (let week_num := (d.day - 1) / 7 + 1
       (d.month == 1 && week_num == 2) || (d.month == 7 && week_num == 3)
         || (d.month == 9 && week_num == 3) || (d.month == 10 && week_num == 2)) then
    true
  else if d.month = 3 ∧ (d.day = 20 ∨ d.day = 21) then true
  else if d.month = 9 ∧ (d.day = 22 ∨ d.day = 23) then true
  else false

/-- Embedding of `_is_jp_holiday`: the clauses above plus the substitute
rule (a Monday after a Sunday holiday is itself a holiday). -/
def isJpHoliday (d : JDate) : Bool :=
  if isJpHolidayNoSubstitute d then true
  else if weekday d = 0 && isJpHolidayNoSubstitute (prevDay d) then true
  else false

/-- Embedding of `is_jp_business_day`. -/
def is_jp_business_day (d : JDate) : Bool :=
  if 5 ≤ weekday d then false
  else !isJpHoliday d

/-- A `datetime.datetime` at minute granularity: a calendar date plus the
minute of the day (sub-minute components do not affect any property of
interest at the policy's 3-hour threshold). -/
structure DateTimeM where
  date : JDate
  mins : ℕ
deriving DecidableEq

/-- Embedding of `datetime.hour`. -/
def DateTimeM.hour (t : DateTimeM) : ℕ := t.mins / 60

/-- Absolute timestamp in minutes, for `now - mtime` arithmetic. -/
def DateTimeM.stamp (t : DateTimeM) : ℤ :=
  (toOrdinal t.date : ℤ) * 1440 + t.mins

namespace CachedSource

/-- Embedding of `CachedSource.needs_refresh`.  `cacheMtime` is the cache
file's mtime when the file exists, `none` when it does not; `now` is
`datetime.now()`.  `MIN_REFRESH_INTERVAL` is 3 hours = 180 minutes and
`_PUBLISH_HOUR` is 10. -/
def needs_refresh (cacheMtime : Option DateTimeM) (now : DateTimeM) : Bool :=
  match cacheMtime with
  | none => true
  | some mtime =>
    if !is_jp_business_day now.date then false
    else if now.hour < 10 then false
    else if mtime.date = now.date ∧ 10 ≤ mtime.hour then false
    else if now.stamp - mtime.stamp < 180 then false
    else true

end CachedSource

/-! Theorems. -/

theorem clip01_nonneg (x : ℚ) : 0 ≤ clip01 x := by
  unfold clip01
  exact le_min (le_max_right x 0) (by norm_num)

theorem clip01_le (x : ℚ) : clip01 x ≤ 100 :=
  min_le_right _ _

theorem clip01_eq_self {x : ℚ} (h0 : 0 ≤ x) (h1 : x ≤ 100) : clip01 x = x := by
  unfold clip01
  rw [max_eq_left h0, min_eq_left h1]

/-- Claim C4: the five sub-score mappings are piecewise linear, clipped to
[0,100], and exact at the documented boundaries: drawdown 0→0, −0.30→100,
−0.15→50; RSI 70→0, 20→100, 45→50; MA-deviation 0→0, −0.10→100, −0.05→50;
Bollinger %B 1.0→0, −0.5→100, 0.25→50. -/
theorem C4_subscore_boundaries :
    (score_drawdown 0 = 0 ∧ score_drawdown (-(3/10)) = 100 ∧
      score_drawdown (-(3/20)) = 50) ∧
    (score_rsi 70 = 0 ∧ score_rsi 20 = 100 ∧ score_rsi 45 = 50) ∧
    (score_ma_deviation 0 = 0 ∧ score_ma_deviation (-(1/10)) = 100 ∧
      score_ma_deviation (-(1/20)) = 50) ∧
    (score_bollinger 1 = 0 ∧ score_bollinger (-(1/2)) = 100 ∧
      score_bollinger (1/4) = 50) ∧
    (∀ x : ℚ, 0 ≤ score_drawdown x ∧ score_drawdown x ≤ 100) ∧
    (∀ x : ℚ, 0 ≤ score_rarity x ∧ score_rarity x ≤ 100) ∧
    (∀ x : ℚ, 0 ≤ score_rsi x ∧ score_rsi x ≤ 100) ∧
    (∀ x : ℚ, 0 ≤ score_ma_deviation x ∧ score_ma_deviation x ≤ 100) ∧
    (∀ x : ℚ, 0 ≤ score_bollinger x ∧ score_bollinger x ≤ 100) ∧
    (∀ x : ℚ, -(3/10) ≤ x → x ≤ 0 → score_drawdown x = -x / (3/10) * 100) ∧
    (∀ x : ℚ, 20 ≤ x → x ≤ 70 → score_rsi x = (70 - x) / 50 * 100) ∧
    (∀ x : ℚ, -(1/10) ≤ x → x ≤ 0 → score_ma_deviation x = -x / (1/10) * 100) ∧
    (∀ x : ℚ, -(1/2) ≤ x → x ≤ 1 → score_bollinger x = (1 - x) / (3/2) * 100) := by
  refine ⟨⟨?_, ?_, ?_⟩, ⟨?_, ?_, ?_⟩, ⟨?_, ?_, ?_⟩, ⟨?_, ?_, ?_⟩,
    ?_, ?_, ?_, ?_, ?_, ?_, ?_, ?_, ?_⟩
  · norm_num [score_drawdown, clip01, abs, min_def, max_def]
  · norm_num [score_drawdown, clip01, abs, min_def, max_def]
  · norm_num [score_drawdown, clip01, abs, min_def, max_def]
  · norm_num [score_rsi, clip01, min_def, max_def]
  · norm_num [score_rsi, clip01, min_def, max_def]
  · norm_num [score_rsi, clip01, min_def, max_def]
  · norm_num [score_ma_deviation, clip01, abs, min_def, max_def]
  · norm_num [score_ma_deviation, clip01, abs, min_def, max_def]
  · norm_num [score_ma_deviation, clip01, abs, min_def, max_def]
  · norm_num [score_bollinger, clip01, min_def, max_def]
  · norm_num [score_bollinger, clip01, min_def, max_def]
  · norm_num [score_bollinger, clip01, min_def, max_def]
  · intro x
    exact ⟨clip01_nonneg _, clip01_le _⟩
  · intro x
    unfold score_rarity
    split_ifs with h
    · norm_num
    · exact ⟨clip01_nonneg _, clip01_le _⟩
  · intro x
    unfold score_rsi
    split_ifs with h
    · norm_num
    · exact ⟨clip01_nonneg _, clip01_le _⟩
  · intro x
    unfold score_ma_deviation
    split_ifs with h
    · norm_num
    · exact ⟨clip01_nonneg _, clip01_le _⟩
  · intro x
    unfold score_bollinger
    split_ifs with h
    · norm_num
    · exact ⟨clip01_nonneg _, clip01_le _⟩
  · intro x hlo hhi
    unfold score_drawdown
    rw [abs_of_nonpos hhi, clip01_eq_self]
    · exact mul_nonneg (div_nonneg (by linarith) (by norm_num)) (by norm_num)
    · rw [div_mul_eq_mul_div, div_le_iff₀ (by norm_num : (0:ℚ) < 3/10)]
      linarith
  · intro x hlo hhi
    unfold score_rsi
    split_ifs with h
    · have hx : x = 70 := le_antisymm hhi h
      rw [hx]
      norm_num
    · rw [show ((70:ℚ) - 20) = 50 by norm_num, clip01_eq_self]
      · exact mul_nonneg (div_nonneg (by linarith) (by norm_num)) (by norm_num)
      · rw [div_mul_eq_mul_div, div_le_iff₀ (by norm_num : (0:ℚ) < 50)]
        linarith
  · intro x hlo hhi
    unfold score_ma_deviation
    split_ifs with h
    · have hx : x = 0 := le_antisymm hhi h
      rw [hx]
      norm_num
    · rw [abs_of_nonpos hhi, clip01_eq_self]
      · exact mul_nonneg (div_nonneg (by linarith) (by norm_num)) (by norm_num)
      · rw [div_mul_eq_mul_div, div_le_iff₀ (by norm_num : (0:ℚ) < 1/10)]
        linarith
  · intro x hlo hhi
    unfold score_bollinger
    split_ifs with h
    · have hx : x = 1 := le_antisymm hhi h
      rw [hx]
      norm_num
    · rw [show ((1:ℚ) - -(1/2)) = 3/2 by norm_num, clip01_eq_self]
      · exact mul_nonneg (div_nonneg (by linarith) (by norm_num)) (by norm_num)
      · rw [div_mul_eq_mul_div, div_le_iff₀ (by norm_num : (0:ℚ) < 3/2)]
        linarith

/-- Claim C4 witness: the drawdown sub-score linearity conjunct applied at
the concrete mid-point −0.15. -/
theorem C4_subscore_boundaries_witness :
    score_drawdown (-(3/20)) = -(-(3/20) : ℚ) / (3/10) * 100 :=
  C4_subscore_boundaries.2.2.2.2.2.2.2.2.2.1 (-(3/20)) (by norm_num) (by norm_num)

/-- Claim C5: the composite score is the weighted sum
drawdown×0.30 + rarity×0.25 + rsi×0.20 + ma_deviation×0.15 +
bollinger×0.10 clipped to [0,100], and the label tiers on the composite
are ≥80 strong buy zone (強い買い場), ≥60 consider buying (買い場検討),
≥40 watch (様子見), else wait (待機), inclusive on each lower bound. -/
theorem C5_total_score_and_label :
    (∀ s : IndicatorScores,
      total_score s =
        min (max (s.drawdown * (3/10) + s.rarity * (1/4) + s.rsi * (1/5)
          + s.ma_deviation * (3/20) + s.bollinger * (1/10)) 0) 100) ∧
    (∀ x : ℚ,
      (label_from_score x = "強い買い場" ↔ 80 ≤ x) ∧
      (label_from_score x = "買い場検討" ↔ 60 ≤ x ∧ x < 80) ∧
      (label_from_score x = "様子見" ↔ 40 ≤ x ∧ x < 60) ∧
      (label_from_score x = "待機" ↔ x < 40)) := by
  constructor
  · intro s
    rfl
  · intro x
    unfold label_from_score
    split_ifs with h1 h2 h3
    · exact ⟨⟨fun _ => h1, fun _ => rfl⟩,
        ⟨fun hh => absurd hh (by decide), fun hh => absurd h1 (by linarith [hh.2])⟩,
        ⟨fun hh => absurd hh (by decide), fun hh => absurd h1 (by linarith [hh.2])⟩,
        ⟨fun hh => absurd hh (by decide), fun hh => absurd h1 (by linarith)⟩⟩
    · exact ⟨⟨fun hh => absurd hh (by decide), fun hh => absurd hh h1⟩,
        ⟨fun _ => ⟨h2, lt_of_not_le h1⟩, fun _ => rfl⟩,
        ⟨fun hh => absurd hh (by decide), fun hh => absurd h2 (by linarith [hh.2])⟩,
        ⟨fun hh => absurd hh (by decide), fun hh => absurd h2 (by linarith)⟩⟩
    · exact ⟨⟨fun hh => absurd hh (by decide), fun hh => absurd hh h1⟩,
        ⟨fun hh => absurd hh (by decide), fun hh => absurd hh.1 h2⟩,
        ⟨fun _ => ⟨h3, lt_of_not_le h2⟩, fun _ => rfl⟩,
        ⟨fun hh => absurd hh (by decide), fun hh => absurd h3 (by linarith)⟩⟩
    · exact ⟨⟨fun hh => absurd hh (by decide), fun hh => absurd hh h1⟩,
        ⟨fun hh => absurd hh (by decide), fun hh => absurd hh.1 h2⟩,
        ⟨fun hh => absurd hh (by decide), fun hh => absurd hh.1 h3⟩,
        ⟨fun _ => lt_of_not_le h3, fun _ => rfl⟩⟩

/-- Claim C8: `needs_refresh` returns true when no cache file exists;
otherwise it returns false on a non-business-day of the Japanese market
calendar, false before the 10:00 publish hour on a business day, false
when the cache mtime is already today at/after the publish hour, false
when less than 3 hours have elapsed since the last refresh, and true
otherwise. -/
theorem C8_needs_refresh_policy :
    (∀ now : DateTimeM, CachedSource.needs_refresh none now = true) ∧
    (∀ mt now : DateTimeM,
      CachedSource.needs_refresh (some mt) now = true ↔
        (is_jp_business_day now.date = true ∧ 10 ≤ now.hour ∧
          ¬(mt.date = now.date ∧ 10 ≤ mt.hour) ∧
          180 ≤ now.stamp - mt.stamp)) := by
  constructor
  · intro now
    rfl
  · intro mt now
    have hrw : CachedSource.needs_refresh (some mt) now =
        (if !is_jp_business_day now.date then false
          else if now.hour < 10 then false
          else if mt.date = now.date ∧ 10 ≤ mt.hour then false
          else if now.stamp - mt.stamp < 180 then false
          else true) := rfl
    rw [hrw]
    split_ifs with h1 h2 h3 h4
    · simp only [Bool.not_eq_true'] at h1
      simp [h1]
    · simp only [false_iff, not_and]
      intro _ hh
      omega
    · simp only [false_iff, not_and]
      intro _ _ hh
      exact absurd h3.2 (hh h3.1)
    · simp only [false_iff, not_and]
      intro _ _ _ hh
      omega
    · have h1' : is_jp_business_day now.date = true := by
        revert h1
        cases is_jp_business_day now.date <;> simp
      simp only [not_lt] at h2 h4
      simp [h1', h2, h3, h4]

/-- Claim C2: with a non-empty cache and a provider failure (a provider
error of one of the `ProviderError` classes the orchestrator recognizes,
on an actually-delta-fetching request, i.e. the cache does not already
cover the range), `fetch` returns the stale cached series filtered to
[start,end] with `is_fallback = true`; with no cache, a provider failure
propagates. -/
theorem C2_fallback_behavior :
    (∀ (file : Option (List Row)) (cdf : List Row)
      (provider : ℤ → ℤ → Except PyExc (List Row)) (start e : ℤ) (exc : PyExc),
      CachedSource.load_cache file = some cdf →
      CachedSource.next_fetch_start cdf start ≤ e →
      provider (CachedSource.next_fetch_start cdf start) e = .error exc →
      caughtByFetch exc = true →
      CachedSource.fetch file provider start e =
        .ok ⟨CachedSource.filterRange cdf start e, true⟩) ∧
    (∀ (provider : ℤ → ℤ → Except PyExc (List Row)) (start e : ℤ) (exc : PyExc),
      provider start e = .error exc →
      CachedSource.fetch none provider start e = .error exc) := by
  constructor
  · intro file cdf provider start e exc hload hle herr hcaught
    unfold CachedSource.fetch
    rw [hload]
    simp only [if_neg (not_lt.2 hle), herr, hcaught]
    rfl
  · intro provider start e exc herr
    unfold CachedSource.fetch
    simp only [CachedSource.load_cache, herr]

/-- Claim C2 witness: a concrete one-row cache with a failing provider
falls back; no cache with a failing provider propagates the error. -/
theorem C2_fallback_behavior_witness :
    CachedSource.fetch (some [⟨0, 100⟩])
        (fun _ _ => .error PyExc.connectionError) 0 5 =
      .ok ⟨CachedSource.filterRange [⟨0, 100⟩] 0 5, true⟩ ∧
    CachedSource.fetch none
        (fun _ _ => .error PyExc.connectionError) 0 5 =
      .error PyExc.connectionError := by
  constructor
  · exact C2_fallback_behavior.1 (some [⟨0, 100⟩]) [⟨0, 100⟩]
      (fun _ _ => .error PyExc.connectionError) 0 5 PyExc.connectionError
      rfl (by decide) rfl rfl
  · exact C2_fallback_behavior.2
      (fun _ _ => .error PyExc.connectionError) 0 5 PyExc.connectionError rfl

/-- Claim C3 counterexample: cached rows on dates 0 … 9 and a request
starting at 20 — the cached range starts at/before the requested start,
yet the next fetch start is 20 (= requested_start), not 10 (= the day
after the cached maximum), contradicting the claim's "the next fetch
start is the day after the cached maximum date". -/
theorem C3_counterexample :
    CachedSource.minDate [⟨0, 100⟩, ⟨9, 101⟩] ≤ 20 ∧
    CachedSource.next_fetch_start [⟨0, 100⟩, ⟨9, 101⟩] 20 = 20 ∧
    (20 : ℤ) ≠ 9 + 1 := by
  refine ⟨by decide, by decide, by decide⟩

/-- Claim C3 amended: if the cached range starts at or before
requested_start, the next fetch start is the LATER of (day after the
cached maximum date) and requested_start; otherwise it is
requested_start.  In particular, for a request whose start lies at or
before the day after the cached maximum d2 (the delta-fetch situation),
the provider is asked only from d2+1. -/
theorem C3_next_fetch_start_amended :
    ∀ (cdf : List Row) (s : ℤ),
      (CachedSource.minDate cdf ≤ s →
        CachedSource.next_fetch_start cdf s = max (CachedSource.maxDate cdf + 1) s) ∧
      (s < CachedSource.minDate cdf →
        CachedSource.next_fetch_start cdf s = s) ∧
      (CachedSource.minDate cdf ≤ s → s ≤ CachedSource.maxDate cdf + 1 →
        CachedSource.next_fetch_start cdf s = CachedSource.maxDate cdf + 1) := by
  intro cdf s
  refine ⟨?_, ?_, ?_⟩
  · intro h
    unfold CachedSource.next_fetch_start
    rw [if_neg (not_lt.2 h)]
  · intro h
    unfold CachedSource.next_fetch_start
    rw [if_pos h]
  · intro h1 h2
    unfold CachedSource.next_fetch_start
    rw [if_neg (not_lt.2 h1)]
    exact max_eq_left h2

/-- Claim C3 witness: cached range [0,9], request [5,∞) — the next fetch
start is 10, the day after the cached maximum. -/
theorem C3_next_fetch_start_amended_witness :
    CachedSource.next_fetch_start [⟨0, 100⟩, ⟨9, 101⟩] 5 = 10 := by
  have h := (C3_next_fetch_start_amended [⟨0, 100⟩, ⟨9, 101⟩] 5).2.2
    (by decide) (by decide)
  simpa using h

/-- Claim C10: with a usable cache and a provider failure on the delta
request, the fallback path is taken exactly when the raised exception is
one of ValueError, ConnectionError, OSError, TimeoutError; any other
exception propagates even though a cache exists. -/
theorem C10_fallback_exception_types :
    ∀ (file : Option (List Row)) (cdf : List Row)
      (provider : ℤ → ℤ → Except PyExc (List Row)) (start e : ℤ) (exc : PyExc),
      CachedSource.load_cache file = some cdf →
      CachedSource.next_fetch_start cdf start ≤ e →
      provider (CachedSource.next_fetch_start cdf start) e = .error exc →
      (caughtByFetch exc = true →
        CachedSource.fetch file provider start e =
          .ok ⟨CachedSource.filterRange cdf start e, true⟩) ∧
      (caughtByFetch exc = false →
        CachedSource.fetch file provider start e = .error exc) ∧
      (caughtByFetch exc = true ↔
        (exc = PyExc.valueError ∨ exc = PyExc.connectionError ∨
          exc = PyExc.osError ∨ exc = PyExc.timeoutError)) := by
  intro file cdf provider start e exc hload hle herr
  refine ⟨?_, ?_, ?_⟩
  · intro hcaught
    unfold CachedSource.fetch
    rw [hload]
    simp only [if_neg (not_lt.2 hle), herr, hcaught]
    rfl
  · intro hnot
    unfold CachedSource.fetch
    rw [hload]
    simp only [if_neg (not_lt.2 hle), herr, hnot]
    rfl
  · cases exc <;> simp [caughtByFetch]

/-- Claim C10 witness: with the same one-row cache, an exception outside
the caught classes propagates, while a ConnectionError falls back. -/
theorem C10_fallback_exception_types_witness :
    CachedSource.fetch (some [⟨0, 100⟩])
        (fun _ _ => .error PyExc.otherError) 0 5 =
      .error PyExc.otherError ∧
    CachedSource.fetch (some [⟨0, 100⟩])
        (fun _ _ => .error PyExc.timeoutError) 0 5 =
      .ok ⟨CachedSource.filterRange [⟨0, 100⟩] 0 5, true⟩ := by
  constructor
  · exact (C10_fallback_exception_types (some [⟨0, 100⟩]) [⟨0, 100⟩]
      (fun _ _ => .error PyExc.otherError) 0 5 PyExc.otherError
      rfl (by decide) rfl).2.1 rfl
  · exact (C10_fallback_exception_types (some [⟨0, 100⟩]) [⟨0, 100⟩]
      (fun _ _ => .error PyExc.timeoutError) 0 5 PyExc.timeoutError
      rfl (by decide) rfl).1 rfl

theorem dropDupAux_mem {seen : List ℤ} {l : List Row} {r : Row}
    (h : r ∈ CachedSource.dropDupAux seen l) : r ∈ l ∧ r.date ∉ seen := by
  induction l generalizing seen with
  | nil => simp [CachedSource.dropDupAux] at h
  | cons a t ih =>
    rw [CachedSource.dropDupAux] at h
    split_ifs at h with hc
    · obtain ⟨h1, h2⟩ := ih h
      exact ⟨List.mem_cons_of_mem a h1, h2⟩
    · rcases List.mem_cons.1 h with hr | hr
      · subst hr
        exact ⟨List.mem_cons_self r t, hc⟩
      · obtain ⟨h1, h2⟩ := ih hr
        refine ⟨List.mem_cons_of_mem a h1, fun hmem => h2 ?_⟩
        exact List.mem_cons_of_mem a.date hmem

theorem dropDupAux_first_date {r : Row} :
    ∀ (c : List Row) (seen : List ℤ) (new : List Row),
      r ∈ CachedSource.dropDupAux seen (c ++ new) → r ∉ c →
      ∀ t ∈ c, t.date ≠ r.date := by
  intro c
  induction c with
  | nil => intro seen new _ _ t ht; simp at ht
  | cons a c' ih =>
    intro seen new h hnot t ht
    rw [List.cons_append, CachedSource.dropDupAux] at h
    split_ifs at h with hc
    · rcases List.mem_cons.1 ht with hta | htc
      · subst hta
        intro heq
        exact (dropDupAux_mem h).2 (heq ▸ hc)
      · exact ih seen new h (fun hr => hnot (List.mem_cons_of_mem a hr)) t htc
    · have hne : r ≠ a := fun he => hnot (he ▸ List.mem_cons_self a c')
      have hmem : r ∈ CachedSource.dropDupAux (a.date :: seen) (c' ++ new) := by
        rcases List.mem_cons.1 h with he | hm
        · exact absurd he hne
        · exact hm
      rcases List.mem_cons.1 ht with hta | htc
      · subst hta
        have := (dropDupAux_mem hmem).2
        intro heq
        exact this (heq ▸ List.mem_cons_self t.date seen)
      · exact ih (a.date :: seen) new hmem
          (fun hr => hnot (List.mem_cons_of_mem a hr)) t htc

theorem dropDupAux_date_covered :
    ∀ (l : List Row) (seen : List ℤ) (r : Row), r ∈ l →
      r.date ∈ seen ∨ ∃ s ∈ CachedSource.dropDupAux seen l, s.date = r.date := by
  intro l
  induction l with
  | nil => intro seen r h; simp at h
  | cons a t ih =>
    intro seen r h
    rw [CachedSource.dropDupAux]
    split_ifs with hc
    · rcases List.mem_cons.1 h with hr | hr
      · subst hr
        exact Or.inl hc
      · exact ih seen r hr
    · rcases List.mem_cons.1 h with hr | hr
      · subst hr
        exact Or.inr ⟨r, List.mem_cons_self r _, rfl⟩
      · rcases ih (a.date :: seen) r hr with hseen | ⟨s, hs1, hs2⟩
        · rcases List.mem_cons.1 hseen with he | hm
          · exact Or.inr ⟨a, List.mem_cons_self a _, he.symm⟩
          · exact Or.inl hm
        · exact Or.inr ⟨s, List.mem_cons_of_mem a hs1, hs2⟩

theorem dropDupAux_pairwise_ne :
    ∀ (l : List Row) (seen : List ℤ),
      (CachedSource.dropDupAux seen l).Pairwise (fun a b : Row => a.date ≠ b.date) := by
  intro l
  induction l with
  | nil => intro seen; simp [CachedSource.dropDupAux]
  | cons a t ih =>
    intro seen
    rw [CachedSource.dropDupAux]
    split_ifs with hc
    · exact ih seen
    · refine List.pairwise_cons.2 ⟨fun s hs => ?_, ih (a.date :: seen)⟩
      have := (dropDupAux_mem hs).2
      intro heq
      exact this (heq ▸ List.mem_cons_self a.date seen)

theorem merge_perm_dropDup (cached new : List Row) :
    (CachedSource.merge (some cached) new).Perm
      (CachedSource.dropDupAux [] (cached ++ new)) :=
  List.perm_insertionSort CachedSource.rowLe _

/-- Claim C1 counterexample: merging a cached row and an incoming row on
the same date keeps the CACHED row (pandas `drop_duplicates` defaults to
`keep="first"` and the cached frame precedes the incoming one in the
concatenation); the incoming row does not win as the claim states. -/
theorem C1_counterexample :
    CachedSource.merge (some [⟨0, 1⟩]) [⟨0, 2⟩] = [⟨0, 1⟩] ∧
    (⟨0, 2⟩ : Row) ∉ CachedSource.merge (some [⟨0, 1⟩]) [⟨0, 2⟩] := by
  decide

/-- Claim C1 amended: the cache merge returns the concatenation
de-duplicated by date with the EXISTING (cached) row winning on a date
conflict, sorted strictly ascending by date; every result row comes from
one of the inputs and every input date is represented. -/
theorem C1_merge_amended :
    ∀ (cached new : List Row),
      (CachedSource.merge (some cached) new).Pairwise
        (fun a b : Row => a.date < b.date) ∧
      (∀ r : Row, r ∈ CachedSource.merge (some cached) new →
        r ∈ cached ∨ r ∈ new) ∧
      (∀ r : Row, r ∈ cached ++ new →
        ∃ s ∈ CachedSource.merge (some cached) new, s.date = r.date) ∧
      (∀ r ∈ cached, ∀ s ∈ CachedSource.merge (some cached) new,
        s.date = r.date → s ∈ cached) := by
  intro cached new
  have hperm := merge_perm_dropDup cached new
  have hsorted : (CachedSource.merge (some cached) new).Pairwise CachedSource.rowLe :=
    List.sorted_insertionSort CachedSource.rowLe _
  have hne : (CachedSource.merge (some cached) new).Pairwise
      (fun a b : Row => a.date ≠ b.date) :=
    ((hperm.pairwise_iff (fun h => h.symm)).2
      (dropDupAux_pairwise_ne (cached ++ new) []))
  refine ⟨?_, ?_, ?_, ?_⟩
  · exact (hsorted.and hne).imp (fun h => lt_of_le_of_ne h.1 h.2)
  · intro r hr
    have hmem := (dropDupAux_mem (hperm.mem_iff.1 hr)).1
    exact List.mem_append.1 hmem
  · intro r hr
    rcases dropDupAux_date_covered (cached ++ new) [] r hr with hseen | ⟨s, hs1, hs2⟩
    · simp at hseen
    · exact ⟨s, hperm.mem_iff.2 hs1, hs2⟩
  · intro r hrc s hsm hdate
    by_cases hsc : s ∈ cached
    · exact hsc
    · have hfd := dropDupAux_first_date cached [] new (hperm.mem_iff.1 hsm) hsc
      exact absurd hdate.symm (hfd r hrc)

/-- Claim C1 witness: a concrete merge of a one-row cache with a
conflicting and a fresh incoming row is strictly sorted by date and the
conflicting date resolves to the cached row. -/
theorem C1_merge_amended_witness :
    (CachedSource.merge (some [⟨1, 10⟩]) [⟨1, 20⟩, ⟨0, 30⟩]).Pairwise
      (fun a b : Row => a.date < b.date) ∧
    (⟨1, 10⟩ : Row) ∈ [(⟨1, 10⟩ : Row)] := by
  refine ⟨(C1_merge_amended [⟨1, 10⟩] [⟨1, 20⟩, ⟨0, 30⟩]).1, ?_⟩
  exact (C1_merge_amended [⟨1, 10⟩] [⟨1, 20⟩, ⟨0, 30⟩]).2.2.2
    ⟨1, 10⟩ (by decide) ⟨1, 10⟩ (by decide) (by decide)

theorem ewmAux_nonneg {α : ℚ} (h0 : 0 ≤ α) (h1 : α ≤ 1) :
    ∀ (l : List ℚ) (prev : ℚ), 0 ≤ prev → (∀ x ∈ l, 0 ≤ x) →
      ∀ y ∈ ewmAux α prev l, 0 ≤ y := by
  intro l
  induction l with
  | nil => intro prev _ _ y hy; simp [ewmAux] at hy
  | cons x xs ih =>
    intro prev hprev hmem y hy
    rw [ewmAux] at hy
    have hx : 0 ≤ x := hmem x (List.mem_cons_self x xs)
    have hstep : 0 ≤ (1 - α) * prev + α * x :=
      add_nonneg (mul_nonneg (by linarith) hprev) (mul_nonneg h0 hx)
    rcases List.mem_cons.1 hy with hyy | hyy
    · subst hyy; exact hstep
    · exact ih ((1 - α) * prev + α * x) hstep
        (fun z hz => hmem z (List.mem_cons_of_mem x hz)) y hyy

theorem ewmNoAdjust_nonneg {α : ℚ} (h0 : 0 ≤ α) (h1 : α ≤ 1)
    (l : List ℚ) (hl : ∀ x ∈ l, 0 ≤ x) :
    ∀ y ∈ ewmNoAdjust α l, 0 ≤ y := by
  cases l with
  | nil => intro y hy; simp [ewmNoAdjust] at hy
  | cons x xs =>
    intro y hy
    rw [ewmNoAdjust] at hy
    have hx : 0 ≤ x := hl x (List.mem_cons_self x xs)
    rcases List.mem_cons.1 hy with hyy | hyy
    · subst hyy; exact hx
    · exact ewmAux_nonneg h0 h1 xs x hx
        (fun z hz => hl z (List.mem_cons_of_mem x hz)) y hyy

theorem rsi_alpha_nonneg (period : ℕ) : 0 ≤ 1 / (period : ℚ) := by positivity

theorem rsi_alpha_le_one {period : ℕ} (hp : 1 ≤ period) : 1 / (period : ℚ) ≤ 1 := by
  have h1 : (1 : ℚ) ≤ (period : ℚ) := by exact_mod_cast hp
  rw [div_le_one (by linarith)]
  exact h1

theorem rsi_avg_gain_nonneg (closes : List ℚ) (period : ℕ) (hp : 1 ≤ period) :
    ∀ y ∈ rsi_avg_gain closes period, 0 ≤ y := by
  apply ewmNoAdjust_nonneg (rsi_alpha_nonneg period) (rsi_alpha_le_one hp)
  intro x hx
  rw [rsiGains] at hx
  obtain ⟨d, _, hd⟩ := List.mem_map.1 hx
  rw [← hd]
  exact le_max_right d 0

theorem rsi_avg_loss_nonneg (closes : List ℚ) (period : ℕ) (hp : 1 ≤ period) :
    ∀ y ∈ rsi_avg_loss closes period, 0 ≤ y := by
  apply ewmNoAdjust_nonneg (rsi_alpha_nonneg period) (rsi_alpha_le_one hp)
  intro x hx
  rw [rsiLosses] at hx
  obtain ⟨d, _, hd⟩ := List.mem_map.1 hx
  rw [← hd]
  exact le_max_right (-d) 0

/-- Claim C9 counterexample: on a flat 15-sample series with period 14,
the smoothed average loss at position 14 (i.e. with the period's worth of
samples) is 0, yet the RSI value there is NaN (`avg_gain/avg_loss` is
0/0 under IEEE semantics), not 100 as the claim states. -/
theorem C9_counterexample :
    (rsi_avg_loss [100, 100, 100, 100, 100, 100, 100, 100, 100, 100, 100,
        100, 100, 100, 100] 14)[13]? = some 0 ∧
    (calc_rsi [100, 100, 100, 100, 100, 100, 100, 100, 100, 100, 100,
        100, 100, 100, 100] 14)[14]? = some none := by
  constructor
  · norm_num [rsi_avg_loss, rsiLosses, diffs, ewmNoAdjust, ewmAux]
  · norm_num [calc_rsi, rsi_avg_gain, rsi_avg_loss, rsiGains, rsiLosses,
      diffs, ewmNoAdjust, ewmAux, List.range_succ]

/-- Claim C9 amended: every defined RSI value lies in [0,100]; at indices
with at least the period's worth of samples where the smoothed average
loss is 0 the RSI is 100 PROVIDED the smoothed average gain is nonzero
(avg_gain/avg_loss = +infinity); when both smoothed averages are 0 (e.g.
a flat series) the RSI value is NaN (undefined), not 100. -/
theorem C9_rsi_amended :
    (∀ (closes : List ℚ) (period : ℕ), 1 ≤ period →
      ∀ (i : ℕ) (v : ℚ), (calc_rsi closes period)[i]? = some (some v) →
        0 ≤ v ∧ v ≤ 100) ∧
    (∀ (closes : List ℚ) (period i : ℕ) (g : ℚ), period ≤ i → i < closes.length →
      (rsi_avg_loss closes period)[i - 1]? = some 0 →
      (rsi_avg_gain closes period)[i - 1]? = some g → g ≠ 0 →
      (calc_rsi closes period)[i]? = some (some 100)) ∧
    (∀ (closes : List ℚ) (period i : ℕ), period ≤ i → i < closes.length →
      (rsi_avg_loss closes period)[i - 1]? = some 0 →
      (rsi_avg_gain closes period)[i - 1]? = some 0 →
      (calc_rsi closes period)[i]? = some none) := by
  refine ⟨?_, ?_, ?_⟩
  · intro closes period hp i v hv
    rw [calc_rsi, List.getElem?_map] at hv
    by_cases hi : i < closes.length
    · rw [List.getElem?_range hi] at hv
      simp only [Option.map_some', Option.some.injEq] at hv
      split_ifs at hv with hper
      rcases hag : (rsi_avg_gain closes period)[i - 1]? with _ | g
      · rw [hag] at hv
        simp at hv
      · rcases hal : (rsi_avg_loss closes period)[i - 1]? with _ | l
        · rw [hag, hal] at hv
          simp at hv
        · rw [hag, hal] at hv
          have hg : 0 ≤ g := rsi_avg_gain_nonneg closes period hp g
            (List.getElem?_mem hag)
          have hl : 0 ≤ l := rsi_avg_loss_nonneg closes period hp l
            (List.getElem?_mem hal)
          simp only at hv
          split_ifs at hv with hl0 hg0
          · have : (100 : ℚ) = v := Option.some.inj hv
            constructor <;> linarith
          · have hveq : 100 - 100 / (1 + g / l) = v := Option.some.inj hv
            have hlpos : 0 < l := lt_of_le_of_ne hl (Ne.symm hl0)
            have hratio : 0 ≤ g / l := div_nonneg hg hl
            have hden : (1 : ℚ) ≤ 1 + g / l := by linarith
            have hfrac_pos : 0 < 100 / (1 + g / l) := by positivity
            have hfrac_le : 100 / (1 + g / l) ≤ 100 :=
              div_le_self (by norm_num) hden
            constructor <;> linarith
    · rw [List.getElem?_eq_none (by simpa using not_lt.1 hi)] at hv
      simp at hv
  · intro closes period i g hpi hilen hloss hgain hg
    rw [calc_rsi, List.getElem?_map, List.getElem?_range hilen]
    simp only [Option.map_some']
    rw [if_neg (by omega), hgain, hloss]
    simp [hg]
  · intro closes period i hpi hilen hloss hgain
    rw [calc_rsi, List.getElem?_map, List.getElem?_range hilen]
    simp only [Option.map_some']
    rw [if_neg (by omega), hgain, hloss]
    simp

/-- Claim C9 witness: on a strictly rising 15-sample series with period
14 the smoothed average loss at position 14 is 0, the smoothed average
gain is 1, and the RSI there is exactly 100; the bound conjunct applied
there gives 100 ∈ [0,100]. -/
theorem C9_rsi_amended_witness :
    (calc_rsi [1, 2, 3, 4, 5, 6, 7, 8, 9, 10, 11, 12, 13, 14, 15]
        14)[14]? = some (some 100) ∧
    (0 : ℚ) ≤ 100 ∧ (100 : ℚ) ≤ 100 := by
  have h14 : (14 : ℕ) < ([1, 2, 3, 4, 5, 6, 7, 8, 9, 10, 11, 12, 13, 14,
      15] : List ℚ).length := by norm_num
  have hloss : (rsi_avg_loss [1, 2, 3, 4, 5, 6, 7, 8, 9, 10, 11, 12, 13,
      14, 15] 14)[14 - 1]? = some 0 := by
    norm_num [rsi_avg_loss, rsiLosses, diffs, ewmNoAdjust, ewmAux]
  have hgain : (rsi_avg_gain [1, 2, 3, 4, 5, 6, 7, 8, 9, 10, 11, 12, 13,
      14, 15] 14)[14 - 1]? = some 1 := by
    norm_num [rsi_avg_gain, rsiGains, diffs, ewmNoAdjust, ewmAux]
  have hmain := C9_rsi_amended.2.1 [1, 2, 3, 4, 5, 6, 7, 8, 9, 10, 11, 12,
    13, 14, 15] 14 14 1 (by norm_num) h14 hloss hgain (by norm_num)
  exact ⟨hmain, C9_rsi_amended.1 [1, 2, 3, 4, 5, 6, 7, 8, 9, 10, 11, 12,
    13, 14, 15] 14 (by norm_num) 14 100 hmain⟩

/-- Claim C7: for any non-empty price history (however short for the
configured windows) `analyze` returns a result whose composite score lies
in [0,100], substituting the neutral fallbacks — RSI 50, %B 0.5,
MA-deviation 0, drawdown 0 — whenever the corresponding indicator's
current value is undefined (NaN). -/
theorem C7_analyze_neutral_fallbacks :
    ∀ (sqrtFn : ℚ → ℚ) (dates : List ℤ) (closes : List ℚ)
      (config : AnalysisConfig), closes ≠ [] →
      ((calc_rsi closes config.rsi_period).getLast? = some none →
        (analyze sqrtFn dates closes config).current_rsi = 50) ∧
      ((calc_bollinger_bands sqrtFn closes config.bb_period
          config.bb_std).percent_b.getLast? = some none →
        (analyze sqrtFn dates closes config).current_bb_percent_b = 1/2) ∧
      ((calc_ma_deviation closes config.ma_days).getLast? = some none →
        (analyze sqrtFn dates closes config).current_ma_deviation = 0) ∧
      ((calc_drawdown closes).getLast? = some none →
        (analyze sqrtFn dates closes config).current_drawdown = 0) ∧
      0 ≤ (analyze sqrtFn dates closes config).total_score ∧
      (analyze sqrtFn dates closes config).total_score ≤ 100 := by
  intro sqrtFn dates closes config hne
  refine ⟨?_, ?_, ?_, ?_, ?_, ?_⟩
  · intro h
    simp only [analyze, h]
  · intro h
    simp only [analyze, h]
  · intro h
    simp only [analyze, h]
  · intro h
    simp only [analyze, h]
  · simp only [analyze, total_score]
    exact clip01_nonneg _
  · simp only [analyze, total_score]
    exact clip01_le _

/-- Claim C7 witness: the single-entry history [0] leaves drawdown,
MA-deviation, RSI and %B all undefined at the last position, and `analyze`
substitutes every neutral fallback while producing a composite in
[0,100]. -/
theorem C7_analyze_neutral_fallbacks_witness :
    (analyze (fun _ => 0) [0] [0] ⟨3, 75, 14, 20, 2⟩).current_rsi = 50 ∧
    (analyze (fun _ => 0) [0] [0] ⟨3, 75, 14, 20, 2⟩).current_bb_percent_b = 1/2 ∧
    (analyze (fun _ => 0) [0] [0] ⟨3, 75, 14, 20, 2⟩).current_ma_deviation = 0 ∧
    (analyze (fun _ => 0) [0] [0] ⟨3, 75, 14, 20, 2⟩).current_drawdown = 0 ∧
    0 ≤ (analyze (fun _ => 0) [0] [0] ⟨3, 75, 14, 20, 2⟩).total_score ∧
    (analyze (fun _ => 0) [0] [0] ⟨3, 75, 14, 20, 2⟩).total_score ≤ 100 := by
  have h := C7_analyze_neutral_fallbacks (fun _ => 0) [0] [0]
    ⟨3, 75, 14, 20, 2⟩ (by simp)
  exact ⟨h.1 (by decide), h.2.1 (by decide), h.2.2.1 (by decide),
    h.2.2.2.1 (by decide), h.2.2.2.2.1, h.2.2.2.2.2⟩

theorem dates_getD_lt (dates : List ℤ)
    (hmono : dates.Pairwise (fun a b : ℤ => a < b)) :
    ∀ t u : ℕ, t < u → u < dates.length →
      dates.getD t 0 < dates.getD u 0 := by
  intro t u htu hu
  have ht : t < dates.length := lt_trans htu hu
  rw [List.getD_eq_getElem dates 0 ht, List.getD_eq_getElem dates 0 hu]
  exact List.pairwise_iff_getElem.1 hmono t u ht hu htu

theorem scanStep_inv (dates : List ℤ) (closes : List ℚ) (threshold : ℚ)
    (hmono : dates.Pairwise (fun a b : ℤ => a < b))
    (st : ScanState) (i : ℕ) (hi : i < dates.length) (v : Option ℚ)
    (h1 : st.events.Pairwise
      (fun a b : DrawdownEvent => a.trough_date < b.trough_date))
    (h2 : ∀ e ∈ st.events, e.recovery_date.isSome = true)
    (h3 : ∀ e ∈ st.events, ∃ t : ℕ, t < i ∧ t < dates.length ∧
      dates.getD t 0 = e.trough_date ∧
      (st.in_drawdown = true → t < st.trough_idx))
    (h4 : st.in_drawdown = true → st.trough_idx < i) :
    (scanStep dates closes threshold st i v).events.Pairwise
      (fun a b : DrawdownEvent => a.trough_date < b.trough_date) ∧
    (∀ e ∈ (scanStep dates closes threshold st i v).events,
      e.recovery_date.isSome = true) ∧
    (∀ e ∈ (scanStep dates closes threshold st i v).events,
      ∃ t : ℕ, t < i + 1 ∧ t < dates.length ∧
      dates.getD t 0 = e.trough_date ∧
      ((scanStep dates closes threshold st i v).in_drawdown = true →
        t < (scanStep dates closes threshold st i v).trough_idx)) ∧
    ((scanStep dates closes threshold st i v).in_drawdown = true →
      (scanStep dates closes threshold st i v).trough_idx < i + 1) := by
  cases v with
  | none =>
    simp only [scanStep]
    refine ⟨h1, h2, ?_, fun h => Nat.lt_succ_of_lt (h4 h)⟩
    intro e he
    obtain ⟨t, ht1, ht2, ht3, ht4⟩ := h3 e he
    exact ⟨t, Nat.lt_succ_of_lt ht1, ht2, ht3, ht4⟩
  | some v =>
    simp only [scanStep]
    by_cases hvt : v < threshold
    · rw [if_pos hvt]
      cases hdd : st.in_drawdown with
      | false =>
        simp only [hdd, Bool.not_false, if_true]
        refine ⟨h1, h2, ?_, fun _ => Nat.lt_succ_self i⟩
        intro e he
        obtain ⟨t, ht1, ht2, ht3, _⟩ := h3 e he
        exact ⟨t, Nat.lt_succ_of_lt ht1, ht2, ht3, fun _ => ht1⟩
      | true =>
        simp only [hdd, Bool.not_true, if_false]
        by_cases hless : v < st.trough_dd
        · rw [if_pos hless]
          refine ⟨h1, h2, ?_, fun _ => Nat.lt_succ_self i⟩
          intro e he
          obtain ⟨t, ht1, ht2, ht3, _⟩ := h3 e he
          exact ⟨t, Nat.lt_succ_of_lt ht1, ht2, ht3, fun _ => ht1⟩
        · rw [if_neg hless]
          refine ⟨h1, h2, ?_, fun _ => Nat.lt_succ_of_lt (h4 hdd)⟩
          intro e he
          obtain ⟨t, ht1, ht2, ht3, ht4⟩ := h3 e he
          exact ⟨t, Nat.lt_succ_of_lt ht1, ht2, ht3, fun _ => ht4 hdd⟩
    · rw [if_neg hvt]
      by_cases hcl : (st.in_drawdown && decide (0 ≤ v)) = true
      · rw [if_pos hcl]
        have hdd : st.in_drawdown = true := by
          have h := hcl
          simp only [Bool.and_eq_true] at h
          exact h.1
        have htr : st.trough_idx < i := h4 hdd
        refine ⟨?_, ?_, ?_, ?_⟩
        · refine List.pairwise_append.2 ⟨h1, List.pairwise_singleton _ _, ?_⟩
          intro a ha b hb
          obtain ⟨t, _, _, ht3, ht4⟩ := h3 a ha
          have hb' : b = ⟨dates.getD st.peak_idx 0, dates.getD st.trough_idx 0,
              st.trough_dd, some (dates.getD i 0),
              some (dates.getD i 0 - dates.getD st.trough_idx 0)⟩ :=
            List.mem_singleton.1 hb
          rw [hb', ← ht3]
          exact dates_getD_lt dates hmono t st.trough_idx (ht4 hdd)
            (lt_trans htr hi)
        · intro e he
          rcases List.mem_append.1 he with h | h
          · exact h2 e h
          · rw [List.mem_singleton.1 h]
            rfl
        · intro e he
          rcases List.mem_append.1 he with h | h
          · obtain ⟨t, ht1, ht2, ht3, _⟩ := h3 e h
            exact ⟨t, Nat.lt_succ_of_lt ht1, ht2, ht3,
              fun hfalse => absurd hfalse (by simp)⟩
          · rw [List.mem_singleton.1 h]
            exact ⟨st.trough_idx, Nat.lt_succ_of_lt htr, lt_trans htr hi, rfl,
              fun hfalse => absurd hfalse (by simp)⟩
        · intro hfalse
          exact absurd hfalse (by simp)
      · rw [if_neg hcl]
        refine ⟨h1, h2, ?_, fun h => Nat.lt_succ_of_lt (h4 h)⟩
        intro e he
        obtain ⟨t, ht1, ht2, ht3, ht4⟩ := h3 e he
        exact ⟨t, Nat.lt_succ_of_lt ht1, ht2, ht3, ht4⟩

theorem scanLoop_inv (dates : List ℤ) (closes : List ℚ) (threshold : ℚ)
    (hmono : dates.Pairwise (fun a b : ℤ => a < b)) :
    ∀ (ddl : List (Option ℚ)) (st : ScanState) (i : ℕ),
      i + ddl.length ≤ dates.length →
      st.events.Pairwise
        (fun a b : DrawdownEvent => a.trough_date < b.trough_date) →
      (∀ e ∈ st.events, e.recovery_date.isSome = true) →
      (∀ e ∈ st.events, ∃ t : ℕ, t < i ∧ t < dates.length ∧
        dates.getD t 0 = e.trough_date ∧
        (st.in_drawdown = true → t < st.trough_idx)) →
      (st.in_drawdown = true → st.trough_idx < i) →
      (scanLoop dates closes threshold st i ddl).events.Pairwise
        (fun a b : DrawdownEvent => a.trough_date < b.trough_date) ∧
      (∀ e ∈ (scanLoop dates closes threshold st i ddl).events,
        e.recovery_date.isSome = true) ∧
      (∀ e ∈ (scanLoop dates closes threshold st i ddl).events,
        ∃ t : ℕ, t < i + ddl.length ∧ t < dates.length ∧
        dates.getD t 0 = e.trough_date ∧
        ((scanLoop dates closes threshold st i ddl).in_drawdown = true →
          t < (scanLoop dates closes threshold st i ddl).trough_idx)) ∧
      ((scanLoop dates closes threshold st i ddl).in_drawdown = true →
        (scanLoop dates closes threshold st i ddl).trough_idx <
          i + ddl.length) := by
  intro ddl
  induction ddl with
  | nil =>
    intro st i hlen h1 h2 h3 h4
    simp only [scanLoop, List.length_nil, Nat.add_zero]
    exact ⟨h1, h2, h3, h4⟩
  | cons v rest ih =>
    intro st i hlen h1 h2 h3 h4
    have hi : i < dates.length := by
      simp only [List.length_cons] at hlen
      omega
    obtain ⟨g1, g2, g3, g4⟩ :=
      scanStep_inv dates closes threshold hmono st i hi v h1 h2 h3 h4
    have hlen' : (i + 1) + rest.length ≤ dates.length := by
      simp only [List.length_cons] at hlen
      omega
    have := ih (scanStep dates closes threshold st i v) (i + 1)
      hlen' g1 g2 g3 g4
    simp only [scanLoop]
    have harith : i + 1 + rest.length = i + (v :: rest).length := by
      simp only [List.length_cons]
      omega
    rw [← harith]
    exact this

theorem cummaxAux_length (m : ℚ) (l : List ℚ) :
    (cummaxAux m l).length = l.length := by
  induction l generalizing m with
  | nil => rfl
  | cons c rest ih => simp [cummaxAux, ih]

theorem cummax_length (l : List ℚ) : (cummax l).length = l.length := by
  cases l with
  | nil => rfl
  | cons c rest => simp [cummax, cummaxAux_length]

theorem calc_drawdown_length (closes : List ℚ) :
    (calc_drawdown closes).length = closes.length := by
  simp [calc_drawdown, cummax_length]

theorem find_drawdown_events_eq (dates : List ℤ) (closes : List ℚ)
    (threshold : ℚ) :
    find_drawdown_events dates closes threshold =
      (if (scanLoop dates closes threshold ⟨[], false, 0, 0, 0⟩ 0
          (calc_drawdown closes)).in_drawdown then
        (scanLoop dates closes threshold ⟨[], false, 0, 0, 0⟩ 0
          (calc_drawdown closes)).events ++
          [⟨dates.getD (scanLoop dates closes threshold ⟨[], false, 0, 0, 0⟩ 0
              (calc_drawdown closes)).peak_idx 0,
            dates.getD (scanLoop dates closes threshold ⟨[], false, 0, 0, 0⟩ 0
              (calc_drawdown closes)).trough_idx 0,
            (scanLoop dates closes threshold ⟨[], false, 0, 0, 0⟩ 0
              (calc_drawdown closes)).trough_dd, none, none⟩]
      else (scanLoop dates closes threshold ⟨[], false, 0, 0, 0⟩ 0
        (calc_drawdown closes)).events) := rfl

/-- Claim C6: with threshold −5%, the series [100,200,180,160,200] yields
exactly one event with max_drawdown = −0.20 and a non-null recovery date;
[100,110,120,130,140] yields zero events; [100,200,150,140] yields one
event with null recovery fields; in general an event still open at the
end of the series is emitted with null recovery fields, and (for strictly
increasing dates of matching length) the reported events are in
chronological order — trough dates strictly increasing, with only the
final event possibly unrecovered. -/
theorem C6_drawdown_events :
    (find_drawdown_events [0, 1, 2, 3, 4] [100, 200, 180, 160, 200]
        (-(1/20)) = [⟨1, 3, -(1/5), some 4, some 1⟩]) ∧
    (find_drawdown_events [0, 1, 2, 3, 4] [100, 110, 120, 130, 140]
        (-(1/20)) = []) ∧
    (find_drawdown_events [0, 1, 2, 3] [100, 200, 150, 140]
        (-(1/20)) = [⟨1, 3, -(3/10), none, none⟩]) ∧
    (∀ (dates : List ℤ) (closes : List ℚ) (threshold : ℚ),
      (scanLoop dates closes threshold ⟨[], false, 0, 0, 0⟩ 0
        (calc_drawdown closes)).in_drawdown = true →
      ∃ evs e, find_drawdown_events dates closes threshold = evs ++ [e] ∧
        e.recovery_date = none ∧ e.recovery_days = none) ∧
    (∀ (dates : List ℤ) (closes : List ℚ) (threshold : ℚ),
      dates.Pairwise (fun a b : ℤ => a < b) →
      dates.length = closes.length →
      (find_drawdown_events dates closes threshold).Pairwise
        (fun a b : DrawdownEvent => a.trough_date < b.trough_date) ∧
      (∀ e ∈ (find_drawdown_events dates closes threshold).dropLast,
        e.recovery_date.isSome = true)) := by
  refine ⟨?_, ?_, ?_, ?_, ?_⟩
  · norm_num [find_drawdown_events, calc_drawdown, cummax, cummaxAux,
      scanLoop, scanStep, peakScan]
  · norm_num [find_drawdown_events, calc_drawdown, cummax, cummaxAux,
      scanLoop, scanStep, peakScan]
  · norm_num [find_drawdown_events, calc_drawdown, cummax, cummaxAux,
      scanLoop, scanStep, peakScan]
  · intro dates closes threshold hfin
    rw [find_drawdown_events_eq, if_pos hfin]
    exact ⟨_, _, rfl, rfl, rfl⟩
  · intro dates closes threshold hmono hlen
    have hddlen : (calc_drawdown closes).length = closes.length :=
      calc_drawdown_length closes
    obtain ⟨g1, g2, g3, g4⟩ := scanLoop_inv dates closes threshold hmono
      (calc_drawdown closes) ⟨[], false, 0, 0, 0⟩ 0
      (by rw [hddlen]; omega)
      List.Pairwise.nil (by simp) (by simp) (by simp)
    rw [find_drawdown_events_eq]
    by_cases hfin : (scanLoop dates closes threshold ⟨[], false, 0, 0, 0⟩ 0
        (calc_drawdown closes)).in_drawdown = true
    · rw [if_pos hfin]
      constructor
      · refine List.pairwise_append.2 ⟨g1, List.pairwise_singleton _ _, ?_⟩
        intro a ha b hb
        obtain ⟨t, _, _, ht3, ht4⟩ := g3 a ha
        have htr : (scanLoop dates closes threshold ⟨[], false, 0, 0, 0⟩ 0
            (calc_drawdown closes)).trough_idx < dates.length := by
          have := g4 hfin
          omega
        rw [List.mem_singleton.1 hb, ← ht3]
        exact dates_getD_lt dates hmono t _ (ht4 hfin) htr
      · intro e he
        rw [List.dropLast_concat] at he
        exact g2 e he
    · rw [if_neg hfin]
      exact ⟨g1, fun e he => g2 e ((List.dropLast_sublist _).subset he)⟩

/-- Claim C6 witness: the open-event conjunct applied to the concrete
unrecovered series [100,200,150,140], and the chronological-order
conjunct applied to [100,200,180,160,200] with strictly increasing
dates. -/
theorem C6_drawdown_events_witness :
    (∃ evs e, find_drawdown_events [0, 1, 2, 3] [100, 200, 150, 140]
        (-(1/20)) = evs ++ [e] ∧
      e.recovery_date = none ∧ e.recovery_days = none) ∧
    (find_drawdown_events [0, 1, 2, 3, 4] [100, 200, 180, 160, 200]
        (-(1/20))).Pairwise
      (fun a b : DrawdownEvent => a.trough_date < b.trough_date) := by
  constructor
  · exact C6_drawdown_events.2.2.2.1 [0, 1, 2, 3] [100, 200, 150, 140]
      (-(1/20))
      (by norm_num [scanLoop, scanStep, calc_drawdown, cummax, cummaxAux,
        peakScan])
  · exact (C6_drawdown_events.2.2.2.2 [0, 1, 2, 3, 4]
      [100, 200, 180, 160, 200] (-(1/20)) (by decide) (by decide)).1

end DipCatcher
